import Mathlib

/-!
Shallow embedding of the physikart numerical core (catenary solver, epicycle
composer, wave string, double pendulum) and proofs about the claims of its
specification.  Every definition is translated directly from the TypeScript
source; JS numbers are modelled as real numbers.
-/

namespace Physikart

open Real

/-! ### Epicycles (calculateAllPositions / updateCircles) -/

/-- A circle of the epicycle chain, as in the source interface Circle. -/
structure Circle where
  x : ℝ
  y : ℝ
  radius : ℝ
  speed : ℝ
  angle : ℝ

/-- A 2D point, as in the source interface Point. -/
@[ext]
structure Point where
  x : ℝ
  y : ℝ

/-- One iteration of the loop body of calculateAllPositions: add the rotating
offset of circle c at the given time to the running point. -/
noncomputable def circleStep (p : Point) (c : Circle) (time : ℝ) : Point :=
  ⟨p.x + c.radius * Real.cos (c.angle + c.speed * time),
   p.y + c.radius * Real.sin (c.angle + c.speed * time)⟩

/-- The successive partial sums pushed by the loop of calculateAllPositions,
starting from the running point p. -/
noncomputable def chainFrom (p : Point) (circles : List Circle) (time : ℝ) : List Point :=
  match circles with
  | [] => []
  | c :: rest =>
      let q := circleStep p c time
      q :: chainFrom q rest time

/-- calculateAllPositions from the source: the root offset (circles[0].x,
circles[0].y) followed by the cumulative position after each circle. -/
noncomputable def calculateAllPositions (circles : List Circle) (time : ℝ) : List Point :=
  match circles with
  | [] => []
  | c0 :: _ => ⟨c0.x, c0.y⟩ :: chainFrom ⟨c0.x, c0.y⟩ circles time

/-- updateCircles from the source: advance each angle by speed * deltaTime. -/
def updateCircles (circles : List Circle) (deltaTime : ℝ) : List Circle :=
  circles.map fun c => { c with angle := c.angle + c.speed * deltaTime }

lemma chainFrom_updateCircles_zero (circles : List Circle) (t : ℝ) :
    ∀ p : Point, chainFrom p (updateCircles circles t) 0 = chainFrom p circles t := by
  induction circles with
  | nil => intro p; simp [updateCircles, chainFrom]
  | cons c rest ih =>
      intro p
      simp only [updateCircles, List.map_cons, chainFrom]
      have hc : circleStep p { c with angle := c.angle + c.speed * t } 0 = circleStep p c t := by
        simp [circleStep]
      rw [hc]
      have ih2 := ih (circleStep p c t)
      simp only [updateCircles] at ih2
      rw [ih2]

/-- Claim C2: epicycle phase-advance equivalence.  For every non-empty chain of
circles and every time t, calculateAllPositions circles t equals
calculateAllPositions (updateCircles circles t) 0: the absolute-time and the
incremental-phase models agree pointwise. -/
theorem epicycle_phase_advance (circles : List Circle) (t : ℝ) (h : circles ≠ []) :
    calculateAllPositions circles t = calculateAllPositions (updateCircles circles t) 0 := by
  cases circles with
  | nil => exact absurd rfl h
  | cons c rest =>
      simp only [calculateAllPositions, updateCircles, List.map_cons]
      rw [show ({ c with angle := c.angle + c.speed * t } : Circle).x = c.x from rfl,
          show ({ c with angle := c.angle + c.speed * t } : Circle).y = c.y from rfl]
      have := chainFrom_updateCircles_zero (c :: rest) t ⟨c.x, c.y⟩
      simp only [updateCircles, List.map_cons] at this
      rw [this]

/-- Witness for C2 at a concrete one-circle chain. -/
theorem epicycle_phase_advance_witness :
    ([(⟨400, 300, 150, 1, 0⟩ : Circle)] ≠ []) ∧
      calculateAllPositions [(⟨400, 300, 150, 1, 0⟩ : Circle)] 2 =
        calculateAllPositions (updateCircles [(⟨400, 300, 150, 1, 0⟩ : Circle)] 2) 0 :=
  ⟨by simp, epicycle_phase_advance [(⟨400, 300, 150, 1, 0⟩ : Circle)] 2 (by simp)⟩

lemma chainFrom_length (circles : List Circle) (t : ℝ) :
    ∀ p : Point, (chainFrom p circles t).length = circles.length := by
  induction circles with
  | nil => intro p; simp [chainFrom]
  | cons c rest ih => intro p; simp [chainFrom, ih]

lemma chainFrom_recurrence (circles : List Circle) (t : ℝ) :
    ∀ (p : Point) (i : ℕ) (ci : Circle) (prev : Point),
      circles[i]? = some ci →
      (p :: chainFrom p circles t)[i]? = some prev →
      (p :: chainFrom p circles t)[i + 1]? = some (circleStep prev ci t) := by
  induction circles with
  | nil => intro p i ci prev hc; simp at hc
  | cons c rest ih =>
      intro p i ci prev hc hp
      cases i with
      | zero =>
          simp only [List.getElem?_cons_zero, Option.some.injEq] at hc hp
          subst hc; subst hp
          simp [chainFrom]
      | succ j =>
          simp only [List.getElem?_cons_succ] at hc hp
          have hstep := ih (circleStep p c t) j ci prev hc
          simp only [chainFrom] at hp ⊢
          simp only [List.getElem?_cons_succ]
          simpa using hstep hp

/-- Claim C6: epicycle chain composition.  For every non-empty chain the result
of calculateAllPositions has exactly one more point than there are circles, its
first point is the root circle's (x, y) offset, and each subsequent point adds
radius_i * (cos (angle_i + speed_i * time), sin (angle_i + speed_i * time)) to
the previous point; for the single circle (x 400, y 300, radius 150, speed 1,
angle 0) the result at time 0 is [(400, 300), (550, 300)] and the second point
at time pi / 2 is (400, 450).  The function is pure: it reads circles and time
and returns fresh points, never writing to any circle. -/
theorem epicycle_chain_composition :
    (∀ (c : Circle) (cs : List Circle) (t : ℝ),
      (calculateAllPositions (c :: cs) t).length = (c :: cs).length + 1 ∧
      (calculateAllPositions (c :: cs) t)[0]? = some ⟨c.x, c.y⟩ ∧
      ∀ (i : ℕ) (ci : Circle) (prev : Point),
        (c :: cs)[i]? = some ci →
        (calculateAllPositions (c :: cs) t)[i]? = some prev →
        (calculateAllPositions (c :: cs) t)[i + 1]? =
          some ⟨prev.x + ci.radius * Real.cos (ci.angle + ci.speed * t),
                prev.y + ci.radius * Real.sin (ci.angle + ci.speed * t)⟩) ∧
    calculateAllPositions [(⟨400, 300, 150, 1, 0⟩ : Circle)] 0 =
      [⟨400, 300⟩, ⟨550, 300⟩] ∧
    (calculateAllPositions [(⟨400, 300, 150, 1, 0⟩ : Circle)] (π / 2))[1]? =
      some ⟨400, 450⟩ := by
  refine ⟨fun c cs t => ⟨?_, ?_, ?_⟩, ?_, ?_⟩
  · simp [calculateAllPositions, chainFrom_length]
  · simp [calculateAllPositions]
  · intro i ci prev hc hp
    have := chainFrom_recurrence (c :: cs) t ⟨c.x, c.y⟩ i ci prev hc
    simp only [calculateAllPositions] at hp ⊢
    exact this hp
  · simp only [calculateAllPositions, chainFrom, circleStep]
    norm_num
  · simp only [calculateAllPositions, chainFrom, circleStep]
    norm_num [Real.cos_pi_div_two, Real.sin_pi_div_two]

/-- Witness for C6: the recurrence applied to the concrete single-circle chain
at index 0 and time 0. -/
theorem epicycle_chain_composition_witness :
    ([(⟨400, 300, 150, 1, 0⟩ : Circle)][0]? = some (⟨400, 300, 150, 1, 0⟩ : Circle)) ∧
      ((calculateAllPositions [(⟨400, 300, 150, 1, 0⟩ : Circle)] 0)[0]? =
        some (⟨400, 300⟩ : Point)) ∧
      (calculateAllPositions [(⟨400, 300, 150, 1, 0⟩ : Circle)] 0)[0 + 1]? =
        some ⟨(400 : ℝ) + 150 * Real.cos (0 + 1 * 0), (300 : ℝ) + 150 * Real.sin (0 + 1 * 0)⟩ :=
  ⟨by simp, by simp [calculateAllPositions],
    (epicycle_chain_composition.1 (⟨400, 300, 150, 1, 0⟩ : Circle) [] 0).2.2 0
      (⟨400, 300, 150, 1, 0⟩ : Circle) (⟨400, 300⟩ : Point) (by simp)
      (by simp [calculateAllPositions])⟩

/-! ### Wave string (WavePhysics.ts) -/

/-- The WaveString state: the immutable parameters of the constructor together
with the positions and velocities arrays, modelled as functions from sample
index to displacement / velocity. -/
structure WaveString where
  numPoints : ℕ
  tension : ℝ
  mass : ℝ
  damping : ℝ
  length : ℝ
  positions : ℕ → ℝ
  velocities : ℕ → ℝ

/-- The constructor of WaveString: both arrays are filled with zeros. -/
def initWaveString (numPoints : ℕ) (tension mass damping length : ℝ) : WaveString :=
  ⟨numPoints, tension, mass, damping, length, fun _ => 0, fun _ => 0⟩

/-- WaveString.reset: zero all positions and velocities. -/
def WaveString.reset (s : WaveString) : WaveString :=
  { s with positions := fun _ => 0, velocities := fun _ => 0 }

/-- WaveString.pluck from the source.  The pluck index is
floor (position * (numPoints - 1)); if it is strictly interior, every interior
sample 1 <= i <= numPoints - 2 receives the triangular displacement
clampedAmplitude * scale and zero velocity, otherwise nothing happens. -/
noncomputable def WaveString.pluck (s : WaveString) (position amplitude : ℝ) : WaveString :=
  let clampedAmplitude := max (-50) (min 50 amplitude)
  let idx : ℤ := ⌊position * ((s.numPoints : ℝ) - 1)⌋
  if 0 < idx ∧ idx < (s.numPoints : ℤ) - 1 then
    { s with
      positions := fun i =>
        if 1 ≤ i ∧ i < s.numPoints - 1 then
          if (i : ℤ) ≤ idx then
            clampedAmplitude * ((i : ℝ) / (idx : ℝ))
          else
            clampedAmplitude * (((s.numPoints : ℝ) - 1 - (i : ℝ)) / ((s.numPoints : ℝ) - 1 - (idx : ℝ)))
        else s.positions i,
      velocities := fun i =>
        if 1 ≤ i ∧ i < s.numPoints - 1 then 0 else s.velocities i }
  else s

/-- One guarded velocity kick of WaveString.drive at index idx. -/
def driveAt (idx : ℕ) (force : ℝ) (s : WaveString) : WaveString :=
  if 0 < idx ∧ idx < s.numPoints - 1 then
    { s with
      velocities := fun i =>
        if i = idx then s.velocities i + force * 0.02 else s.velocities i }
  else s

/-- WaveString.drive from the source: add a sinusoidal velocity kick at the
quarter, half and three-quarter sample points (in that order). -/
noncomputable def WaveString.drive (s : WaveString) (frequency time amplitude : ℝ) : WaveString :=
  let force := amplitude * Real.sin (2 * π * frequency * time)
  driveAt (3 * s.numPoints / 4) force
    (driveAt (s.numPoints / 2) force (driveAt (s.numPoints / 4) force s))

/-- The loop body of WaveString.update at interior sample i: the new
(position, velocity) pair after the finite-difference step and the stability
resets.  Over the reals the isFinite tests of the source are vacuous, so the
resets fire exactly on the out-of-bound comparisons. -/
noncomputable def updatePoint (s : WaveString) (dt k dx : ℝ) (i : ℕ) : ℝ × ℝ :=
  let d2y_dx2 := (s.positions (i + 1) - 2 * s.positions i + s.positions (i - 1)) / (dx * dx)
  let acceleration := k * d2y_dx2 - s.damping * s.velocities i * 20
  let newV := s.velocities i + acceleration * dt
  let newP := s.positions i + newV * dt
  let pv := if 500 < |newP| then ((0 : ℝ), (0 : ℝ)) else (newP, newV)
  (pv.1, if 1000 < |pv.2| then 0 else pv.2)

/-- WaveString.update from the source: advance every interior point by the
explicit finite-difference scheme with the stability resets, then force both
endpoints to zero displacement and velocity. -/
noncomputable def WaveString.update (s : WaveString) (dt : ℝ) : WaveString :=
  let k := s.tension / s.mass * 0.1
  let dx := s.length / ((s.numPoints : ℝ) - 1)
  { s with
    positions := fun i =>
      if i = 0 ∨ i = s.numPoints - 1 then 0
      else if 1 ≤ i ∧ i < s.numPoints - 1 then (updatePoint s dt k dx i).1
      else s.positions i,
    velocities := fun i =>
      if i = 0 ∨ i = s.numPoints - 1 then 0
      else if 1 ≤ i ∧ i < s.numPoints - 1 then (updatePoint s dt k dx i).2
      else s.velocities i }

/-- One call against a WaveString: pluck, drive or update. -/
inductive WaveOp where
  | pluckOp (position amplitude : ℝ)
  | driveOp (frequency time amplitude : ℝ)
  | updateOp (dt : ℝ)

/-- Apply one call to the string. -/
noncomputable def applyOp (s : WaveString) : WaveOp → WaveString
  | .pluckOp p a => s.pluck p a
  | .driveOp f t a => s.drive f t a
  | .updateOp dt => s.update dt

/-- Run a sequence of calls from a starting state. -/
noncomputable def runOps (s : WaveString) (ops : List WaveOp) : WaveString :=
  ops.foldl applyOp s

/-- The fixed-endpoint invariant of the wave string. -/
def FixedEndpoints (s : WaveString) : Prop :=
  s.positions 0 = 0 ∧ s.positions (s.numPoints - 1) = 0 ∧
    s.velocities 0 = 0 ∧ s.velocities (s.numPoints - 1) = 0

lemma pluck_numPoints (s : WaveString) (p a : ℝ) : (s.pluck p a).numPoints = s.numPoints := by
  simp only [WaveString.pluck]
  split <;> rfl

lemma driveAt_numPoints (idx : ℕ) (f : ℝ) (s : WaveString) :
    (driveAt idx f s).numPoints = s.numPoints := by
  simp only [driveAt]
  split <;> rfl

lemma drive_numPoints (s : WaveString) (f t a : ℝ) :
    (s.drive f t a).numPoints = s.numPoints := by
  unfold WaveString.drive
  simp [driveAt_numPoints]

lemma update_numPoints (s : WaveString) (dt : ℝ) : (s.update dt).numPoints = s.numPoints := rfl

lemma pluck_fixedEndpoints (s : WaveString) (p a : ℝ) (h : FixedEndpoints s) :
    FixedEndpoints (s.pluck p a) := by
  simp only [WaveString.pluck]
  split
  · obtain ⟨h1, h2, h3, h4⟩ := h
    unfold FixedEndpoints
    dsimp only
    refine ⟨?_, ?_, ?_, ?_⟩
    · rw [if_neg (by omega)]; exact h1
    · rw [if_neg (by omega)]; exact h2
    · rw [if_neg (by omega)]; exact h3
    · rw [if_neg (by omega)]; exact h4
  · exact h

lemma driveAt_fixedEndpoints (idx : ℕ) (f : ℝ) (s : WaveString) (h : FixedEndpoints s) :
    FixedEndpoints (driveAt idx f s) := by
  simp only [driveAt]
  split
  · rename_i hguard
    obtain ⟨h1, h2, h3, h4⟩ := h
    unfold FixedEndpoints
    dsimp only
    refine ⟨h1, h2, ?_, ?_⟩
    · rw [if_neg (by omega)]; exact h3
    · rw [if_neg (by omega)]; exact h4
  · exact h

lemma drive_fixedEndpoints (s : WaveString) (f t a : ℝ) (h : FixedEndpoints s) :
    FixedEndpoints (s.drive f t a) := by
  unfold WaveString.drive
  have hn1 := driveAt_numPoints (s.numPoints / 4) (a * Real.sin (2 * π * f * t)) s
  apply driveAt_fixedEndpoints
  apply driveAt_fixedEndpoints
  apply driveAt_fixedEndpoints
  exact h

lemma update_fixedEndpoints (s : WaveString) (dt : ℝ) : FixedEndpoints (s.update dt) := by
  have hn : (s.update dt).numPoints = s.numPoints := rfl
  unfold FixedEndpoints
  rw [hn]
  refine ⟨?_, ?_, ?_, ?_⟩ <;> simp [WaveString.update]

lemma applyOp_fixedEndpoints (s : WaveString) (op : WaveOp) (h : FixedEndpoints s) :
    FixedEndpoints (applyOp s op) := by
  cases op with
  | pluckOp p a => exact pluck_fixedEndpoints s p a h
  | driveOp f t a => exact drive_fixedEndpoints s f t a h
  | updateOp dt => exact update_fixedEndpoints s dt

lemma runOps_fixedEndpoints (ops : List WaveOp) :
    ∀ s : WaveString, FixedEndpoints s → FixedEndpoints (runOps s ops) := by
  induction ops with
  | nil => intro s h; exact h
  | cons op rest ih =>
      intro s h
      exact ih (applyOp s op) (applyOp_fixedEndpoints s op h)

/-- Claim C1: fixed endpoints of the wave string.  After any sequence of pluck,
drive and update calls starting from construction (with any real arguments),
positions 0, positions (numPoints - 1), velocities 0 and
velocities (numPoints - 1) are exactly zero; the same holds starting from
reset applied to an arbitrary state. -/
theorem wave_fixed_endpoints (numPoints : ℕ) (tension mass damping length : ℝ)
    (ops : List WaveOp) :
    FixedEndpoints (runOps (initWaveString numPoints tension mass damping length) ops) ∧
      ∀ s : WaveString, FixedEndpoints (runOps s.reset ops) := by
  constructor
  · exact runOps_fixedEndpoints ops _ ⟨rfl, rfl, rfl, rfl⟩
  · intro s
    exact runOps_fixedEndpoints ops _ ⟨rfl, rfl, rfl, rfl⟩

lemma updatePoint_bounds (s : WaveString) (dt k dx : ℝ) (i : ℕ) :
    |(updatePoint s dt k dx i).1| ≤ 500 ∧ |(updatePoint s dt k dx i).2| ≤ 1000 := by
  simp only [updatePoint]
  set newV := s.velocities i +
    (k * ((s.positions (i + 1) - 2 * s.positions i + s.positions (i - 1)) / (dx * dx)) -
      s.damping * s.velocities i * 20) * dt with hV
  set newP := s.positions i + newV * dt with hP
  by_cases hp : 500 < |newP|
  · rw [if_pos hp]
    constructor
    · simp
    · simp
  · rw [if_neg hp]
    push_neg at hp
    constructor
    · simpa using hp
    · by_cases hv : 1000 < |newV|
      · rw [if_pos hv]; simp
      · rw [if_neg hv]; push_neg at hv; simpa using hv

/-- Claim C5: stability reset postcondition of the wave integrator.  For every
prior state and every dt, immediately after update every sample index below
numPoints holds a position of absolute value at most 500 and a velocity of
absolute value at most 1000 (samples that would exceed the bounds are reset to
zero; over the reals every value is finite). -/
theorem wave_update_bounds (s : WaveString) (dt : ℝ) (i : ℕ) (h : i < s.numPoints) :
    |(s.update dt).positions i| ≤ 500 ∧ |(s.update dt).velocities i| ≤ 1000 := by
  by_cases hend : i = 0 ∨ i = s.numPoints - 1
  · constructor <;> simp only [WaveString.update] <;> rw [if_pos hend] <;> simp
  · have hint : 1 ≤ i ∧ i < s.numPoints - 1 := by omega
    have hb := updatePoint_bounds s dt (s.tension / s.mass * 0.1)
      (s.length / ((s.numPoints : ℝ) - 1)) i
    constructor <;> simp only [WaveString.update] <;> rw [if_neg hend, if_pos hint]
    · exact hb.1
    · exact hb.2

/-- Witness for C5 on a concrete three-point string whose interior entries are
far out of bounds. -/
theorem wave_update_bounds_witness :
    (1 < (⟨3, 1, 1, 1, 1, fun _ => 10000, fun _ => 10000⟩ : WaveString).numPoints) ∧
      |((⟨3, 1, 1, 1, 1, fun _ => 10000, fun _ => 10000⟩ : WaveString).update 1).positions 1| ≤ 500 ∧
      |((⟨3, 1, 1, 1, 1, fun _ => 10000, fun _ => 10000⟩ : WaveString).update 1).velocities 1| ≤ 1000 :=
  ⟨by norm_num,
    wave_update_bounds (⟨3, 1, 1, 1, 1, fun _ => 10000, fun _ => 10000⟩ : WaveString) 1 1
      (by norm_num)⟩

/-- Counterexample to claim C7 as stated: for the freshly constructed 3-point
string, positionFraction 1 lies in [0, 1] and the sample nearest
1 * (numPoints - 1) is 2, so the claim demands the triangular displacement
positions 1 = clamp 10 * (1 / 2) = 5; the code leaves positions 1 = 0 because
the pluck index 2 fails the strict-interior guard. -/
theorem pluck_full_range_counterexample :
    ((initWaveString 3 1 1 1 1).pluck 1 10).positions 1 ≠
      max (-50) (min 50 (10 : ℝ)) * ((1 : ℝ) / 2) := by
  have hfloor : ⌊(1 : ℝ) * (((initWaveString 3 1 1 1 1).numPoints : ℝ) - 1)⌋ = 2 := by
    norm_num [initWaveString]
  have hnoop : (initWaveString 3 1 1 1 1).pluck 1 10 = initWaveString 3 1 1 1 1 := by
    simp only [WaveString.pluck]
    rw [if_neg]
    rw [hfloor]
    norm_num [initWaveString]
  rw [hnoop]
  norm_num [initWaveString]

/-- Claim C7 (amended): pluck postcondition on the strict interior.  Whenever
idx = floor (positionFraction * (numPoints - 1)) satisfies 0 < idx <
numPoints - 1, pluck writes the triangular displacement with the amplitude
clamped to [-50, 50]: every interior sample 1 <= i <= numPoints - 2 gets
positions i = clampedAmplitude * i / idx on the left of the peak and
clampedAmplitude * (numPoints - 1 - i) / (numPoints - 1 - idx) on the right,
and velocity zero; all other samples (the endpoints in particular) keep their
previous position and velocity. -/
theorem pluck_triangular (s : WaveString) (position amplitude : ℝ)
    (hidx : 0 < ⌊position * ((s.numPoints : ℝ) - 1)⌋ ∧
      ⌊position * ((s.numPoints : ℝ) - 1)⌋ < (s.numPoints : ℤ) - 1) :
    ∀ i : ℕ,
      ((1 ≤ i ∧ i < s.numPoints - 1) →
        ((s.pluck position amplitude).positions i =
          (if (i : ℤ) ≤ ⌊position * ((s.numPoints : ℝ) - 1)⌋ then
            max (-50) (min 50 amplitude) *
              ((i : ℝ) / ((⌊position * ((s.numPoints : ℝ) - 1)⌋ : ℤ) : ℝ))
          else
            max (-50) (min 50 amplitude) *
              (((s.numPoints : ℝ) - 1 - (i : ℝ)) /
                ((s.numPoints : ℝ) - 1 - ((⌊position * ((s.numPoints : ℝ) - 1)⌋ : ℤ) : ℝ)))) ∧
          (s.pluck position amplitude).velocities i = 0)) ∧
      (¬(1 ≤ i ∧ i < s.numPoints - 1) →
        (s.pluck position amplitude).positions i = s.positions i ∧
          (s.pluck position amplitude).velocities i = s.velocities i) := by
  intro i
  simp only [WaveString.pluck]
  rw [if_pos hidx]
  constructor
  · intro hi
    dsimp only
    rw [if_pos hi, if_pos hi]
    exact ⟨rfl, rfl⟩
  · intro hi
    dsimp only
    rw [if_neg hi, if_neg hi]
    exact ⟨rfl, rfl⟩

/-- Witness for C7 (amended) on a fresh 5-point string plucked at the middle. -/
theorem pluck_triangular_witness :
    ((0 : ℤ) < ⌊(1 / 2 : ℝ) * (((initWaveString 5 1 1 1 1).numPoints : ℝ) - 1)⌋ ∧
      ⌊(1 / 2 : ℝ) * (((initWaveString 5 1 1 1 1).numPoints : ℝ) - 1)⌋ <
        ((initWaveString 5 1 1 1 1).numPoints : ℤ) - 1) ∧
    (1 ≤ 1 ∧ 1 < (initWaveString 5 1 1 1 1).numPoints - 1) ∧
    ((initWaveString 5 1 1 1 1).pluck (1 / 2) 10).velocities 1 = 0 := by
  have h1 : (0 : ℤ) < ⌊(1 / 2 : ℝ) * (((initWaveString 5 1 1 1 1).numPoints : ℝ) - 1)⌋ ∧
      ⌊(1 / 2 : ℝ) * (((initWaveString 5 1 1 1 1).numPoints : ℝ) - 1)⌋ <
        ((initWaveString 5 1 1 1 1).numPoints : ℤ) - 1 := by
    norm_num [initWaveString]
  have h2 : 1 ≤ 1 ∧ 1 < (initWaveString 5 1 1 1 1).numPoints - 1 := by
    norm_num [initWaveString]
  exact ⟨h1, h2, ((pluck_triangular (initWaveString 5 1 1 1 1) (1 / 2) 10 h1 1).1 h2).2⟩

/-- Claim C10: pluck at an endpoint is a silent no-op.  Whenever
floor (positionFraction * (numPoints - 1)) equals 0 or is at least
numPoints - 1 (in particular for positionFraction = 1, and for any
positionFraction below 1 / (numPoints - 1), including 0), pluck returns the
string completely unchanged and surfaces no error. -/
theorem pluck_boundary_noop (s : WaveString) (position amplitude : ℝ)
    (h : ⌊position * ((s.numPoints : ℝ) - 1)⌋ = 0 ∨
      (s.numPoints : ℤ) - 1 ≤ ⌊position * ((s.numPoints : ℝ) - 1)⌋) :
    s.pluck position amplitude = s := by
  simp only [WaveString.pluck]
  rw [if_neg]
  rintro ⟨h1, h2⟩
  rcases h with h0 | hge
  · omega
  · omega

/-- Witness for C10: plucking the fresh 3-point string at positionFraction 1
changes nothing. -/
theorem pluck_boundary_noop_witness :
    (⌊(1 : ℝ) * (((initWaveString 3 1 1 1 1).numPoints : ℝ) - 1)⌋ = 0 ∨
      ((initWaveString 3 1 1 1 1).numPoints : ℤ) - 1 ≤
        ⌊(1 : ℝ) * (((initWaveString 3 1 1 1 1).numPoints : ℝ) - 1)⌋) ∧
    (initWaveString 3 1 1 1 1).pluck 1 7 = initWaveString 3 1 1 1 1 := by
  have h : ⌊(1 : ℝ) * (((initWaveString 3 1 1 1 1).numPoints : ℝ) - 1)⌋ = 0 ∨
      ((initWaveString 3 1 1 1 1).numPoints : ℤ) - 1 ≤
        ⌊(1 : ℝ) * (((initWaveString 3 1 1 1 1).numPoints : ℝ) - 1)⌋ := by
    right
    norm_num [initWaveString]
  exact ⟨h, pluck_boundary_noop (initWaveString 3 1 1 1 1) 1 7 h⟩

/-! ### Double pendulum (ChaosSimulation.ts) -/

/-- PendulumState from the source. -/
@[ext]
structure PendulumState where
  theta1 : ℝ
  theta2 : ℝ
  omega1 : ℝ
  omega2 : ℝ

/-- PendulumParams from the source. -/
structure PendulumParams where
  L1 : ℝ
  L2 : ℝ
  m1 : ℝ
  m2 : ℝ
  g : ℝ
  damping : ℝ

/-- derivatives from the source: the Lagrangian equations of motion of the
double pendulum with linear angular-velocity damping, transcribed verbatim. -/
noncomputable def derivatives (state : PendulumState) (params : PendulumParams) :
    PendulumState :=
  let delta := state.theta2 - state.theta1
  let den1 := (params.m1 + params.m2) * params.L1 -
    params.m2 * params.L1 * Real.cos delta * Real.cos delta
  let den2 := params.L2 / params.L1 * den1
  { theta1 := state.omega1
    theta2 := state.omega2
    omega1 :=
      (params.m2 * params.L1 * state.omega1 * state.omega1 * Real.sin delta * Real.cos delta +
        params.m2 * params.g * Real.sin state.theta2 * Real.cos delta +
        params.m2 * params.L2 * state.omega2 * state.omega2 * Real.sin delta -
        (params.m1 + params.m2) * params.g * Real.sin state.theta1 -
        params.damping * state.omega1) / den1
    omega2 :=
      (-params.m2 * params.L2 * state.omega2 * state.omega2 * Real.sin delta * Real.cos delta +
        (params.m1 + params.m2) * params.g * Real.sin state.theta1 * Real.cos delta -
        (params.m1 + params.m2) * params.L1 * state.omega1 * state.omega1 * Real.sin delta -
        (params.m1 + params.m2) * params.g * Real.sin state.theta2 -
        params.damping * state.omega2) / den2 }

/-- rk4Step from the source, transcribed verbatim (0.5 factors included). -/
noncomputable def rk4Step (state : PendulumState) (params : PendulumParams) (dt : ℝ) :
    PendulumState :=
  let k1 := derivatives state params
  let state2 : PendulumState :=
    ⟨state.theta1 + k1.theta1 * dt * 0.5, state.theta2 + k1.theta2 * dt * 0.5,
     state.omega1 + k1.omega1 * dt * 0.5, state.omega2 + k1.omega2 * dt * 0.5⟩
  let k2 := derivatives state2 params
  let state3 : PendulumState :=
    ⟨state.theta1 + k2.theta1 * dt * 0.5, state.theta2 + k2.theta2 * dt * 0.5,
     state.omega1 + k2.omega1 * dt * 0.5, state.omega2 + k2.omega2 * dt * 0.5⟩
  let k3 := derivatives state3 params
  let state4 : PendulumState :=
    ⟨state.theta1 + k3.theta1 * dt, state.theta2 + k3.theta2 * dt,
     state.omega1 + k3.omega1 * dt, state.omega2 + k3.omega2 * dt⟩
  let k4 := derivatives state4 params
  ⟨state.theta1 + dt / 6 * (k1.theta1 + 2 * k2.theta1 + 2 * k3.theta1 + k4.theta1),
   state.theta2 + dt / 6 * (k1.theta2 + 2 * k2.theta2 + 2 * k3.theta2 + k4.theta2),
   state.omega1 + dt / 6 * (k1.omega1 + 2 * k2.omega1 + 2 * k3.omega1 + k4.omega1),
   state.omega2 + dt / 6 * (k1.omega2 + 2 * k2.omega2 + 2 * k3.omega2 + k4.omega2)⟩

/-- The derivative field exactly as the specification words it: dtheta = omega
and the dOmega formulas over den1 = (m1+m2) L1 - m2 L1 cos^2 (theta2 - theta1)
and den2 = (L2/L1) den1, each numerator ending in the -damping*omega term. -/
noncomputable def specDerivatives (state : PendulumState) (params : PendulumParams) :
    PendulumState :=
  let δ := state.theta2 - state.theta1
  let den1 := (params.m1 + params.m2) * params.L1 - params.m2 * params.L1 * Real.cos δ ^ 2
  let den2 := params.L2 / params.L1 * den1
  { theta1 := state.omega1
    theta2 := state.omega2
    omega1 :=
      (params.m2 * params.L1 * state.omega1 ^ 2 * Real.sin δ * Real.cos δ +
        params.m2 * params.g * Real.sin state.theta2 * Real.cos δ +
        params.m2 * params.L2 * state.omega2 ^ 2 * Real.sin δ -
        (params.m1 + params.m2) * params.g * Real.sin state.theta1 -
        params.damping * state.omega1) / den1
    omega2 :=
      (-(params.m2 * params.L2 * state.omega2 ^ 2 * Real.sin δ * Real.cos δ) +
        (params.m1 + params.m2) * params.g * Real.sin state.theta1 * Real.cos δ -
        (params.m1 + params.m2) * params.L1 * state.omega1 ^ 2 * Real.sin δ -
        (params.m1 + params.m2) * params.g * Real.sin state.theta2 -
        params.damping * state.omega2) / den2 }

/-- Advance a state by h times a derivative, componentwise (the specification's
midpoint and full-step stage states). -/
noncomputable def advanceBy (state : PendulumState) (h : ℝ) (k : PendulumState) :
    PendulumState :=
  ⟨state.theta1 + h * k.theta1, state.theta2 + h * k.theta2,
   state.omega1 + h * k.omega1, state.omega2 + h * k.omega2⟩

/-- The RK4 step exactly as the specification words it: k1 at state, k2 and k3
at midpoint states advanced by dt/2 using the prior stage's derivative, k4 at
the full-step state using k3, combined as state + (dt/6)(k1+2k2+2k3+k4). -/
noncomputable def rk4SpecStep (state : PendulumState) (params : PendulumParams) (dt : ℝ) :
    PendulumState :=
  let k1 := specDerivatives state params
  let k2 := specDerivatives (advanceBy state (dt / 2) k1) params
  let k3 := specDerivatives (advanceBy state (dt / 2) k2) params
  let k4 := specDerivatives (advanceBy state dt k3) params
  ⟨state.theta1 + dt / 6 * (k1.theta1 + 2 * k2.theta1 + 2 * k3.theta1 + k4.theta1),
   state.theta2 + dt / 6 * (k1.theta2 + 2 * k2.theta2 + 2 * k3.theta2 + k4.theta2),
   state.omega1 + dt / 6 * (k1.omega1 + 2 * k2.omega1 + 2 * k3.omega1 + k4.omega1),
   state.omega2 + dt / 6 * (k1.omega2 + 2 * k2.omega2 + 2 * k3.omega2 + k4.omega2)⟩

lemma div_congr_aux {a b c d : ℝ} (h1 : a = c) (h2 : b = d) : a / b = c / d := by
  rw [h1, h2]

lemma derivatives_eq_spec (state : PendulumState) (params : PendulumParams) :
    derivatives state params = specDerivatives state params := by
  simp only [derivatives, specDerivatives]
  ext
  · rfl
  · rfl
  · exact div_congr_aux (by ring) (by ring)
  · exact div_congr_aux (by ring) (by ring)

lemma halfstate_eq (st k : PendulumState) (dt : ℝ) :
    (⟨st.theta1 + k.theta1 * dt * 0.5, st.theta2 + k.theta2 * dt * 0.5,
      st.omega1 + k.omega1 * dt * 0.5, st.omega2 + k.omega2 * dt * 0.5⟩ : PendulumState) =
      advanceBy st (dt / 2) k := by
  simp only [advanceBy]
  ext <;> dsimp only <;> ring

lemma fullstate_eq (st k : PendulumState) (dt : ℝ) :
    (⟨st.theta1 + k.theta1 * dt, st.theta2 + k.theta2 * dt,
      st.omega1 + k.omega1 * dt, st.omega2 + k.omega2 * dt⟩ : PendulumState) =
      advanceBy st dt k := by
  simp only [advanceBy]
  ext <;> dsimp only <;> ring

/-- Claim C3: the pendulum step is exactly one RK4 step of the stated equations
of motion.  rk4Step equals the specification-level step that evaluates the
spec's derivative field at k1 = state, k2 and k3 at half-step states advanced
by dt/2 with the prior stage's derivative, k4 at the full-step state with k3,
and combines as state + (dt/6)(k1 + 2 k2 + 2 k3 + k4) componentwise, for every
state, params and dt; the result applies no clamping and no angle wraparound. -/
theorem rk4Step_is_rk4_of_spec_derivatives (state : PendulumState) (params : PendulumParams)
    (dt : ℝ) : rk4Step state params dt = rk4SpecStep state params dt := by
  simp only [rk4Step, rk4SpecStep, derivatives_eq_spec, halfstate_eq, fullstate_eq]

/-- createOverlays from the source: the base state followed by the states of
the loop i = 1 .. count - 1, each with both angles offset by
variation * pi / 180 where variation = ((i - count / 2) / count) * randomness,
and the base angular velocities. -/
noncomputable def createOverlays (baseState : PendulumState) (count : ℕ) (randomness : ℝ) :
    List PendulumState :=
  baseState :: (List.range (count - 1)).map fun j =>
    let i : ℕ := j + 1
    let variation := ((i : ℝ) - (count : ℝ) / 2) / (count : ℝ) * randomness
    { theta1 := baseState.theta1 + variation * π / 180
      theta2 := baseState.theta2 + variation * π / 180
      omega1 := baseState.omega1
      omega2 := baseState.omega2 }

/-- Counterexample to claim C8 as stated: for count = 0 the code still returns
the one-element list [baseState], not an empty sequence of exactly count
states. -/
theorem createOverlays_count_counterexample :
    (createOverlays ⟨0, 0, 0, 0⟩ 0 0).length ≠ 0 := by
  simp [createOverlays]

/-- Claim C8 (amended): overlay creation for count >= 1.  createOverlays
returns exactly count states; the first is the base state, and for 1 <= i <
count the i-th state offsets both angles of the base state by
((i - count/2)/count) * randomness degrees converted to radians
(variation * pi / 180) and keeps the base angular velocities. -/
theorem createOverlays_spec (baseState : PendulumState) (count : ℕ) (randomness : ℝ)
    (hc : 1 ≤ count) :
    (createOverlays baseState count randomness).length = count ∧
    (createOverlays baseState count randomness)[0]? = some baseState ∧
    ∀ i : ℕ, 1 ≤ i → i < count →
      (createOverlays baseState count randomness)[i]? =
        some ⟨baseState.theta1 + ((i : ℝ) - (count : ℝ) / 2) / (count : ℝ) * randomness * π / 180,
              baseState.theta2 + ((i : ℝ) - (count : ℝ) / 2) / (count : ℝ) * randomness * π / 180,
              baseState.omega1, baseState.omega2⟩ := by
  refine ⟨?_, ?_, ?_⟩
  · simp only [createOverlays, List.length_cons, List.length_map, List.length_range]
    omega
  · simp [createOverlays]
  · intro i h1 h2
    obtain ⟨j, rfl⟩ : ∃ j, i = j + 1 := ⟨i - 1, by omega⟩
    simp only [createOverlays, List.getElem?_cons_succ, List.getElem?_map,
      List.getElem?_range (show j < count - 1 by omega), Option.map_some]
    push_cast
    norm_num

/-- Witness for C8 (amended) at count = 2. -/
theorem createOverlays_spec_witness :
    (1 ≤ 2) ∧ (createOverlays ⟨1, 2, 3, 4⟩ 2 10).length = 2 :=
  ⟨by norm_num, (createOverlays_spec ⟨1, 2, 3, 4⟩ 2 10 (by norm_num)).1⟩

/-! ### Catenary solver -/

/-- An anchor: a point with a stable identity, as in the source interface. -/
structure Anchor where
  id : ℤ
  x : ℝ
  y : ℝ

/-- Newton-Raphson loop of solveCatenaryParameterSymmetric, with the remaining
iteration budget as fuel; the source's break statements return the current
estimate, its early-return on a small step returns the new one. -/
noncomputable def newtonSymmetric (b horizontalDist chainLength : ℝ) : ℕ → ℝ → ℝ
  | 0, a => a
  | fuel + 1, a =>
    let ratio := b / a
    let sinhVal := Real.sinh ratio
    let coshVal := Real.cosh ratio
    let f := 2 * a * sinhVal - chainLength
    let df := 2 * sinhVal - 2 * b / a * coshVal
    if |df| < 1e-10 then a
    else
      let aNew := a - f / df
      if aNew ≤ 0 ∨ horizontalDist * 100 < aNew then a
      else if |aNew - a| < 0.0001 then aNew
      else newtonSymmetric b horizontalDist chainLength fuel aNew

/-- solveCatenaryParameterSymmetric from the source: 100 Newton iterations
starting from a = horizontalDist / 2. -/
noncomputable def solveCatenaryParameterSymmetric (horizontalDist chainLength : ℝ) : ℝ :=
  newtonSymmetric (horizontalDist / 2) horizontalDist chainLength 100 (horizontalDist / 2)

/-- calculateSymmetricCatenary from the source. -/
noncomputable def calculateSymmetricCatenary (anchor1 anchor2 : Anchor) (chainLength : ℝ)
    (numPoints : ℕ) : List Point :=
  let dx := anchor2.x - anchor1.x
  let horizontalDist := |dx|
  let a := solveCatenaryParameterSymmetric horizontalDist chainLength
  let midX := (anchor1.x + anchor2.x) / 2
  let b := horizontalDist / 2
  let c := anchor1.y - a * Real.cosh (b / a)
  (List.range (numPoints + 1)).map fun (i : ℕ) =>
    let t := (i : ℝ) / (numPoints : ℝ)
    let x := anchor1.x + t * dx
    ⟨x, a * Real.cosh ((x - midX) / a) + c⟩

/-- The damped fixed-point loop of solveCatenaryParameterAsymmetric, with the
remaining iteration budget as fuel over the state (a, x1, x2). -/
noncomputable def asymmetricIterate (horizontalDist verticalDist chainLength : ℝ) :
    ℕ → ℝ × ℝ × ℝ → ℝ × ℝ × ℝ
  | 0, s => s
  | fuel + 1, (a, x1, x2) =>
    let cosh1 := Real.cosh (x1 / a)
    let cosh2 := Real.cosh (x2 / a)
    let sinh1 := Real.sinh (x1 / a)
    let sinh2 := Real.sinh (x2 / a)
    let vertError := a * (cosh2 - cosh1) - verticalDist
    let lengthError := a * (sinh2 - sinh1) - chainLength
    if |vertError| < 0.01 ∧ |lengthError| < 0.01 then (a, x1, x2)
    else
      let aStep := a - lengthError * 0.1
      let x1New := x1 - vertError * 0.01
      let x2New := x1New + horizontalDist
      let aNew := max 10 (min aStep (horizontalDist * 10))
      asymmetricIterate horizontalDist verticalDist chainLength fuel (aNew, x1New, x2New)

/-- solveCatenaryParameterAsymmetric from the source: the symmetric solution as
initial guess for a, x1 = -horizontalDist/2, x2 = horizontalDist/2, then up to
50 damped fixed-point iterations. -/
noncomputable def solveCatenaryParameterAsymmetric (horizontalDist verticalDist chainLength : ℝ) :
    ℝ × ℝ × ℝ :=
  asymmetricIterate horizontalDist verticalDist chainLength 50
    (solveCatenaryParameterSymmetric horizontalDist chainLength,
      -(horizontalDist / 2), horizontalDist / 2)

/-- calculateAsymmetricCatenary from the source. -/
noncomputable def calculateAsymmetricCatenary (anchor1 anchor2 : Anchor) (chainLength : ℝ)
    (numPoints : ℕ) : List Point :=
  let dx := anchor2.x - anchor1.x
  let dy := anchor2.y - anchor1.y
  let horizontalDist := |dx|
  let sol := solveCatenaryParameterAsymmetric horizontalDist dy chainLength
  let a := sol.1
  let x1 := sol.2.1
  let x2 := sol.2.2
  let c := anchor1.y - a * Real.cosh (x1 / a)
  (List.range (numPoints + 1)).map fun (i : ℕ) =>
    let t := (i : ℝ) / (numPoints : ℝ)
    let x := anchor1.x + t * dx
    let xLocal := x1 + t * (x2 - x1)
    ⟨x, a * Real.cosh (xLocal / a) + c⟩

/-- calculateCatenary from the source (src/unnamed/part_001): straight line if
the chain cannot sag, else the symmetric or asymmetric catenary; gravity is
accepted and unused, as in the source. -/
noncomputable def calculateCatenary (anchor1 anchor2 : Anchor) (chainLength gravity : ℝ) :
    List Point :=
  let dx := anchor2.x - anchor1.x
  let dy := anchor2.y - anchor1.y
  let straightLineDist := Real.sqrt (dx * dx + dy * dy)
  if chainLength ≤ straightLineDist * 1.001 then
    (List.range (100 + 1)).map fun (i : ℕ) =>
      let t := (i : ℝ) / 100
      ⟨anchor1.x + t * dx, anchor1.y + t * dy⟩
  else if |dy| < 1 then
    calculateSymmetricCatenary anchor1 anchor2 chainLength 100
  else
    calculateAsymmetricCatenary anchor1 anchor2 chainLength 100

/-- Claim C4: catenary taut straight-line limit.  For distinct anchors and
chainLength <= straightLineDistance * 1.001, calculateCatenary returns the
101-point polyline whose i-th point is anchor1 + (i/100) * (anchor2 - anchor1);
consequently every returned point lies on the segment between the two anchors
(colinear with them). -/
theorem catenary_taut_straight_line (anchor1 anchor2 : Anchor) (chainLength gravity : ℝ)
    (hne : (anchor1.x, anchor1.y) ≠ (anchor2.x, anchor2.y))
    (htaut : chainLength ≤
      Real.sqrt ((anchor2.x - anchor1.x) * (anchor2.x - anchor1.x) +
        (anchor2.y - anchor1.y) * (anchor2.y - anchor1.y)) * 1.001) :
    calculateCatenary anchor1 anchor2 chainLength gravity =
      (List.range 101).map (fun i =>
        ⟨anchor1.x + (i : ℝ) / 100 * (anchor2.x - anchor1.x),
         anchor1.y + (i : ℝ) / 100 * (anchor2.y - anchor1.y)⟩) ∧
    ∀ p ∈ calculateCatenary anchor1 anchor2 chainLength gravity,
      ∃ t : ℝ, 0 ≤ t ∧ t ≤ 1 ∧
        p = ⟨anchor1.x + t * (anchor2.x - anchor1.x),
             anchor1.y + t * (anchor2.y - anchor1.y)⟩ := by
  have hline : calculateCatenary anchor1 anchor2 chainLength gravity =
      (List.range 101).map (fun i =>
        ⟨anchor1.x + (i : ℝ) / 100 * (anchor2.x - anchor1.x),
         anchor1.y + (i : ℝ) / 100 * (anchor2.y - anchor1.y)⟩) := by
    dsimp only [calculateCatenary]
    rw [if_pos htaut]
  refine ⟨hline, ?_⟩
  intro p hp
  rw [hline] at hp
  simp only [List.mem_map, List.mem_range] at hp
  obtain ⟨i, hi, rfl⟩ := hp
  refine ⟨(i : ℝ) / 100, by positivity, ?_, rfl⟩
  rw [div_le_one (by norm_num)]
  exact_mod_cast Nat.lt_succ_iff.mp hi

/-- Witness for C4 with anchors (0,0) and (100,0) and a 50-unit chain. -/
theorem catenary_taut_straight_line_witness :
    (((0 : ℝ), (0 : ℝ)) ≠ ((100 : ℝ), (0 : ℝ))) ∧
    ((50 : ℝ) ≤ Real.sqrt (((100 : ℝ) - 0) * ((100 : ℝ) - 0) + ((0 : ℝ) - 0) * ((0 : ℝ) - 0)) * 1.001) ∧
    calculateCatenary ⟨1, 0, 0⟩ ⟨2, 100, 0⟩ 50 1 =
      (List.range 101).map (fun i =>
        ⟨(0 : ℝ) + (i : ℝ) / 100 * ((100 : ℝ) - 0),
         (0 : ℝ) + (i : ℝ) / 100 * ((0 : ℝ) - 0)⟩) := by
  have hsqrt : Real.sqrt (((100 : ℝ) - 0) * ((100 : ℝ) - 0) + ((0 : ℝ) - 0) * ((0 : ℝ) - 0)) =
      100 := by
    rw [show (((100 : ℝ) - 0) * ((100 : ℝ) - 0) + ((0 : ℝ) - 0) * ((0 : ℝ) - 0)) =
      (100 : ℝ) ^ 2 by norm_num]
    rw [Real.sqrt_sq (by norm_num)]
  have htaut : (50 : ℝ) ≤
      Real.sqrt (((100 : ℝ) - 0) * ((100 : ℝ) - 0) + ((0 : ℝ) - 0) * ((0 : ℝ) - 0)) * 1.001 := by
    rw [hsqrt]; norm_num
  refine ⟨by norm_num [Prod.ext_iff], htaut, ?_⟩
  exact (catenary_taut_straight_line ⟨1, 0, 0⟩ ⟨2, 100, 0⟩ 50 1
    (by norm_num [Prod.ext_iff]) htaut).1
